import Mathlib

/-!
# Portfolio server (`server.js`): contact handler and request routing

A shallow embedding of the Express application defined in `server.js`.

* JavaScript values that can reach the handlers are the values a parsed JSON or
  form body can hold.  Strings are sequences of UTF-16 code units, because
  `String.prototype.length`, `trim` and `includes` work on code units.
* The contact handler (`app.post('/api/contact', ...)`) is a total function from
  the parsed body and the capture time to a response; the `try`/`catch` is an
  `Except` computation whose error branch is the `catch` block.
* The router is the middleware stack in registration order, each layer either
  answering the request, passing it on, or raising an error that Express
  answers itself.  What the libraries make of the surroundings of a request
  (the parsed body, the files of the `public` folder, conditional headers) is a
  parameter of the model.

Console output (`console.log`, `console.error`) is not part of a response and is
left out.
-/

set_option autoImplicit false

namespace Server

/-! ## JavaScript values -/

/-- A JavaScript string: its UTF-16 code units. -/
abbrev JSString := List Nat

/-- UTF-16 code units of one Unicode scalar value. -/
def utf16Char (c : Char) : List Nat :=
  let n := c.toNat
  if n < 0x10000 then [n]
  else [0xD800 + (n - 0x10000) / 0x400, 0xDC00 + (n - 0x10000) % 0x400]

/-- The JavaScript string written by a source literal. -/
def utf16 (s : String) : JSString :=
  s.toList.flatMap utf16Char

/-- Values of a parsed request body.  A number is kept as its IEEE-754 binary64
bit pattern; objects keep their properties in insertion order. -/
inductive JSValue where
  | undefined
  | null
  | bool (b : Bool)
  | number (bits : Nat)
  | string (s : JSString)
  | array (items : List JSValue)
  | object (props : List (JSString × JSValue))

/-- ToBoolean of a Number: false exactly for `+0`, `-0` and `NaN`. -/
def numberToBoolean (bits : Nat) : Bool :=
  let magnitude := (bits % 2 ^ 64) % 2 ^ 63
  !(magnitude == 0 || decide (0x7FF0000000000000 < magnitude))

/-- ToBoolean, as applied by the `!` operator. -/
def toBoolean : JSValue → Bool
  | .undefined => false
  | .null => false
  | .bool b => b
  | .number bits => numberToBoolean bits
  | .string s => !s.isEmpty
  | .array _ => true
  | .object _ => true

/-- White space and line terminators, the code units `String.prototype.trim`
strips. -/
def isTrimmable (u : Nat) : Bool :=
  u == 0x09 || u == 0x0A || u == 0x0B || u == 0x0C || u == 0x0D || u == 0x20 ||
  u == 0xA0 || u == 0x1680 || (0x2000 ≤ u && u ≤ 0x200A) || u == 0x2028 ||
  u == 0x2029 || u == 0x202F || u == 0x205F || u == 0x3000 || u == 0xFEFF

/-- The method `String.prototype.trim`. -/
def trim (s : JSString) : JSString :=
  ((s.dropWhile isTrimmable).reverse.dropWhile isTrimmable).reverse

/-- The code unit of `'@'`. -/
def atSign : Nat := 0x40

/-- The thrown `TypeError` of a call on something that is not a function, or of
destructuring `undefined` or `null`. -/
inductive JSError where
  | typeError

/-- The call `v.trim()`.  Only strings have a callable `trim`: on numbers,
booleans, arrays and objects the property is absent or, for an object with an
own `trim` entry, a value that is not a function. -/
def callTrim : JSValue → Except JSError JSString
  | .string s => .ok (trim s)
  | _ => .error .typeError

/-- The test `v.includes('@')`.  Strings search for the code unit, arrays
(through `Array.prototype.includes`) for an element equal to the string `'@'`;
no other value has a callable `includes`. -/
def callIncludesAt : JSValue → Except JSError Bool
  | .string s => .ok (s.contains atSign)
  | .array items =>
      .ok (items.any fun v =>
        match v with
        | .string s => s == [atSign]
        | _ => false)
  | _ => .error .typeError

/-- Reading one of the field names `name`, `email`, `project`, `message` off a
value that is not `undefined` or `null`.  Only an object can have such a
property (arrays and primitives have neither an own nor an inherited one). -/
def getField (body : JSValue) (key : JSString) : JSValue :=
  match body with
  | .object props => (props.lookup key).getD .undefined
  | _ => .undefined

/-- Whether a value is `undefined` or `null`. -/
def isNullish : JSValue → Bool
  | .undefined => true
  | .null => true
  | _ => false

/-- The destructuring `const { name, email, project, message } = req.body`,
which throws on `undefined` and `null`. -/
def destructure (body : JSValue) :
    Except JSError (JSValue × JSValue × JSValue × JSValue) :=
  if isNullish body then .error .typeError
  else .ok (getField body (utf16 "name"), getField body (utf16 "email"),
      getField body (utf16 "project"), getField body (utf16 "message"))

/-! ## Responses -/

/-- What `res.status(code).json(value)` sends. -/
structure Response where
  status : Nat
  body : JSValue

/-- The body `{ success: false, error: text }`. -/
def failureBody (text : String) : JSValue :=
  .object [(utf16 "success", .bool false), (utf16 "error", .string (utf16 text))]

/-- The acknowledgment built by the template literal of the success branch. -/
def thanks (trimmedName : JSString) : JSString :=
  utf16 "Thanks " ++ trimmedName ++ utf16 "! I’ll get back to you soon."

/-- The body `{ success: true, message, timestamp }`. -/
def successBody (trimmedName now : JSString) : JSValue :=
  .object [(utf16 "success", .bool true), (utf16 "message", .string (thanks trimmedName)),
    (utf16 "timestamp", .string now)]

/-! ## Contact form route -/

/-- The condition `!name || name.trim().length < 2`, evaluated left to right. -/
def nameFails (name : JSValue) : Except JSError Bool :=
  if !toBoolean name then pure true
  else do
    let t ← callTrim name
    pure (decide (t.length < 2))

/-- The condition `!email || !email.includes('@') || email.trim().length < 5`. -/
def emailFails (email : JSValue) : Except JSError Bool :=
  if !toBoolean email then pure true
  else do
    let hasAt ← callIncludesAt email
    if !hasAt then pure true
    else do
      let t ← callTrim email
      pure (decide (t.length < 5))

/-- The condition `!message || message.trim().length < 10`. -/
def messageFails (message : JSValue) : Except JSError Bool :=
  if !toBoolean message then pure true
  else do
    let t ← callTrim message
    pure (decide (t.length < 10))

/-- The statements of the `try` block after the destructuring: the three
validation `if`s in source order, then the success response.  `now` is the
result of `new Date().toISOString()` in that response. -/
def validateAndReply (now : JSString) (name email message : JSValue) :
    Except JSError Response := do
  if ← nameFails name then
    return ⟨400, failureBody "Name must be at least 2 characters."⟩
  if ← emailFails email then
    return ⟨400, failureBody "Please provide a valid email address."⟩
  if ← messageFails message then
    return ⟨400, failureBody "Message must be at least 10 characters."⟩
  let t ← callTrim name
  return ⟨200, successBody t now⟩

/-- The `try` block of `app.post('/api/contact', ...)`. -/
def contactTry (now : JSString) (body : JSValue) : Except JSError Response := do
  let (name, email, _project, message) ← destructure body
  validateAndReply now name email message

/-- The handler `app.post('/api/contact', ...)`: the `try` block, with every
thrown value caught and answered by the `catch` block. -/
def contactHandler (now : JSString) (body : JSValue) : Response :=
  match contactTry now body with
  | .ok response => response
  | .error _ => ⟨500, failureBody "Something went wrong."⟩

/-! ## Route paths

Express 4 compiles a route path to a regular expression (case-insensitive and
with an optional trailing slash, the defaults this application keeps), matches
the request path against it and percent-decodes every captured group.  The paths
of `server.js` are made of literal characters and `*` only. -/

/-- One element of a route path: a literal character, or `*`, compiled to the
group `(.*)`. -/
inductive Token where
  | lit (c : Char)
  | star

/-- The elements of a route path. -/
def tokens (path : String) : List Token :=
  path.toList.map fun c => if c = '*' then Token.star else Token.lit c

/-- Line terminators, which `.` does not match. -/
def isLineTerminator (c : Char) : Bool :=
  c.toNat == 0x0A || c.toNat == 0x0D || c.toNat == 0x2028 || c.toNat == 0x2029

/-- Comparison of a literal under the `i` flag. -/
def sameLetter (c p : Char) : Bool :=
  c.toLower == p.toLower

/-- The greedy group `(.*)` followed by the rest `k` of the expression: the
longest run of characters other than line terminators after which `k` succeeds.
The result is the text of the group and what `k` returned. -/
def starThen {γ : Type} (k : List Char → Option γ) : List Char → Option (List Char × γ)
  | [] => (k []).map fun r => ([], r)
  | c :: cs =>
      match (if isLineTerminator c then none else starThen k cs) with
      | some (group, r) => some (c :: group, r)
      | none => (k (c :: cs)).map fun r => ([], r)

/-- Matching the elements of a route path, then the rest `k` of the expression;
the result is the list of captured groups. -/
def matchTokens :
    List Token → (List Char → Option (List (List Char))) → List Char → Option (List (List Char))
  | [], k => k
  | .star :: ts, k => fun input =>
      (starThen (matchTokens ts k) input).map fun found => found.1 :: found.2
  | .lit p :: ts, k => fun input =>
      match input with
      | [] => none
      | c :: cs => if sameLetter c p then matchTokens ts k cs else none

/-- The tail `\/?$` of a route registered with `app.get` or `app.post`. -/
def acceptEnd (input : List Char) : Option (List (List Char)) :=
  if input.isEmpty || input == ['/'] then some [] else none

/-- The tail `\/?(?=\/|$)` of a path given to `app.use`. -/
def acceptPrefix (input : List Char) : Option (List (List Char)) :=
  if input.isEmpty || input.head? == some '/' then some [] else none

/-- The route path without the final slash that the optional `\/?` replaces. -/
def corePath (path : String) : String :=
  if path.toList.getLast? = some '/' then String.mk path.toList.dropLast else path

/-- The call `regexp.exec` with the expression compiled from `path`, anchored at
both ends for a route (`exact`) and at the start only for `app.use`: the
captured groups of a match. -/
def regexpExec (path : String) (exact : Bool) (requestPath : List Char) :
    Option (List (List Char)) :=
  matchTokens (tokens (corePath path)) (if exact then acceptEnd else acceptPrefix) requestPath

/-! ## Percent-decoding of a captured group -/

/-- The value of a hexadecimal digit. -/
def hexDigit (c : Char) : Option Nat :=
  let n := c.toNat
  if 0x30 ≤ n ∧ n ≤ 0x39 then some (n - 0x30)
  else if 0x41 ≤ n ∧ n ≤ 0x46 then some (n - 0x41 + 10)
  else if 0x61 ≤ n ∧ n ≤ 0x66 then some (n - 0x61 + 10)
  else none

/-- The byte written by the two digits of an escape `%XX`. -/
def escapeByte (high low : Char) : Option Nat :=
  match hexDigit high, hexDigit low with
  | some a, some b => some (16 * a + b)
  | _, _ => none

/-- For the first byte of an escape sequence, the number of bytes that must
follow it: none for an ASCII byte, one to three after a UTF-8 lead byte; a
continuation byte or a byte with more than four leading one bits is an error. -/
def continuationCount (b : Nat) : Option Nat :=
  if b < 0x80 then some 0
  else if b < 0xC0 then none
  else if b < 0xE0 then some 1
  else if b < 0xF0 then some 2
  else if b < 0xF8 then some 3
  else none

/-- Whether a byte is a UTF-8 continuation byte `10xxxxxx`. -/
def isContinuation (b : Nat) : Bool :=
  0x80 ≤ b && b ≤ 0xBF

/-- Whether the octets are the UTF-8 encoding of one Unicode code point (no
overlong form, no surrogate, nothing above U+10FFFF). -/
def validUtf8 : List Nat → Bool
  | [b0, b1] => 0xC2 ≤ b0 && b0 ≤ 0xDF && isContinuation b1
  | [b0, b1, b2] =>
      ((b0 == 0xE0 && 0xA0 ≤ b1 && b1 ≤ 0xBF) ||
        (0xE1 ≤ b0 && b0 ≤ 0xEC && isContinuation b1) ||
        (b0 == 0xED && 0x80 ≤ b1 && b1 ≤ 0x9F) ||
        (0xEE ≤ b0 && b0 ≤ 0xEF && isContinuation b1)) && isContinuation b2
  | [b0, b1, b2, b3] =>
      ((b0 == 0xF0 && 0x90 ≤ b1 && b1 ≤ 0xBF) ||
        (0xF1 ≤ b0 && b0 ≤ 0xF3 && isContinuation b1) ||
        (b0 == 0xF4 && 0x80 ≤ b1 && b1 ≤ 0x8F)) && isContinuation b2 && isContinuation b3
  | _ => false

/-- The scan of `decodeURIComponent`: `octets` are the bytes of the escape
sequence being read and `need` the number of escapes `%XX` still to follow.
The result is whether the scan ends without a `URIError`. -/
def decodeScan : List Nat → Nat → List Char → Bool
  | _, need, [] => need == 0
  | octets, need, '%' :: high :: low :: rest =>
      match escapeByte high low with
      | none => false
      | some b =>
          if need == 0 then
            match continuationCount b with
            | none => false
            | some 0 => decodeScan [] 0 rest
            | some n => decodeScan [b] n rest
          else if need == 1 then validUtf8 (octets ++ [b]) && decodeScan [] 0 rest
          else decodeScan (octets ++ [b]) (need - 1) rest
  | _, need, c :: rest => need == 0 && c != '%' && decodeScan [] 0 rest

/-- Whether `decodeURIComponent` returns on the text instead of throwing. -/
def decodes (text : List Char) : Bool :=
  decodeScan [] 0 text

/-- The outcome of `Layer.prototype.match`. -/
inductive Match where
  /-- The expression does not match the path. -/
  | no
  /-- The expression matches and every group decodes. -/
  | yes
  /-- The expression matches and decoding a group throws; the error carries
  status 400. -/
  | failed
  deriving DecidableEq

/-- The method `Layer.prototype.match` for a layer registered with `path`. -/
def matchLayer (path : String) (exact : Bool) (requestPath : List Char) : Match :=
  match regexpExec path exact requestPath with
  | none => .no
  | some groups => if groups.all decodes then .yes else .failed

/-! ## Request routing -/

/-- Request methods. -/
inductive Method where
  | GET | HEAD | POST | PUT | DELETE | PATCH | OPTIONS | OTHER
  deriving DecidableEq

/-- What `express.json` and `express.urlencoded` make of the body of a request:
the value left in `req.body`, or the status (400, 413, 415) of the error with
which one of them gives up. -/
inductive BodyResult where
  | parsed (value : JSValue)
  | jsonRejected (status : Nat)
  | urlencodedRejected (status : Nat)

/-- The value of `req.body` after the body parsers; `{}` when parsing failed. -/
def BodyResult.value : BodyResult → JSValue
  | .parsed value => value
  | .jsonRejected _ => .object []
  | .urlencodedRejected _ => .object []

/-- A request as the middleware stack sees it: method, path of the URL, the
outcome of body parsing, and whether its validators (`If-None-Match`,
`If-Modified-Since`) match the response about to be sent (`req.fresh`). -/
structure Request where
  method : Method
  path : List Char
  body : BodyResult
  fresh : Bool

/-- What `send`, called by `res.sendFile`, does with `public/index.html` for the
request at hand. -/
inductive SendResult where
  /-- The file is found and sent: status 200 with the file, or 206 with the
  range of it that the request asks for. -/
  | sent
  /-- The request is conditional and fresh: 304 without body. -/
  | notModified
  /-- Sending fails and the error is passed to `next`: 404 when the file is
  missing, 412 or 416 when a precondition or range of the request fails. -/
  | failed (status : Nat)

/-- The surroundings of a request: whether `NODE_ENV` is `'production'`; for
which request paths `express.static` ends the request itself instead of passing
it on; and what `res.sendFile` does with `public/index.html`. -/
structure Env where
  production : Bool
  asset : List Char → Bool
  entry : SendResult

/-- The functions that can answer a request. -/
inductive Handler where
  | corsPreflight
  | staticAsset
  | health
  | home
  | contact
  | portfolio
  | apiNotFound
  | spaFallback
  deriving DecidableEq

/-- The layers of the application, as registered. -/
inductive Layer where
  | cors
  | json
  | urlencoded
  | static
  | route (method : Method) (path : String) (handler : Handler)
  | use (path : String) (handler : Handler)

/-- The middleware stack of `server.js` in registration order. -/
def stack : List Layer :=
  [ .cors, .json, .urlencoded, .static,
    .route .GET "/health" .health,
    .route .GET "/" .home,
    .route .POST "/api/contact" .contact,
    .route .GET "/api/portfolio" .portfolio,
    .use "/api/*" .apiNotFound,
    .route .GET "/*" .spaFallback ]

/-- Whether a route registered for `routeMethod` handles the request method; a
`GET` route also handles `HEAD`. -/
def handlesMethod (routeMethod requestMethod : Method) : Bool :=
  requestMethod == routeMethod || (requestMethod == .HEAD && routeMethod == .GET)

/-- What a layer does with a request. -/
inductive Step where
  /-- The layer does not apply or calls `next()`. -/
  | next
  /-- The layer hands the request to a handler that ends it. -/
  | answer (handler : Handler)
  /-- The layer raises an error with this status. -/
  | error (status : Nat)
  deriving DecidableEq

/-- One layer on a request.  With an origin list (outside production) `cors`
ends every `OPTIONS` request itself; with `origin: false` it passes everything
on.  A body parser passes on unless it gives up on the body.  `express.static`
ends `GET` and `HEAD` requests for which it finds something.  A route or an
`app.use` path is matched first, a failure to decode a group raising an error
whatever the method; a route then looks at the method. -/
def Layer.step (env : Env) (req : Request) : Layer → Step
  | .cors => if !env.production && req.method == .OPTIONS then .answer .corsPreflight else .next
  | .json =>
      match req.body with
      | .jsonRejected status => .error status
      | _ => .next
  | .urlencoded =>
      match req.body with
      | .urlencodedRejected status => .error status
      | _ => .next
  | .static =>
      if (req.method == .GET || req.method == .HEAD) && env.asset req.path then
        .answer .staticAsset
      else .next
  | .route method path handler =>
      match matchLayer path true req.path with
      | .no => .next
      | .failed => .error 400
      | .yes => if handlesMethod method req.method then .answer handler else .next
  | .use path handler =>
      match matchLayer path false req.path with
      | .no => .next
      | .failed => .error 400
      | .yes => .answer handler

/-- The loop of `Router.prototype.handle` over the layers: the first layer that
does not pass the request on decides; once an error is raised every later layer
is skipped. -/
def runStack (env : Env) (req : Request) : List Layer → Step
  | [] => .next
  | layer :: rest =>
      match layer.step env req with
      | .next => runStack env req rest
      | .answer handler => .answer handler
      | .error status => .error status

/-- The stack of `server.js` on a request. -/
def dispatch (env : Env) (req : Request) : Step :=
  runStack env req stack

/-- Whether some route matches the path of the request, under any method. -/
def someRoutePath (req : Request) : Bool :=
  stack.any fun layer =>
    match layer with
    | .route _ path _ => matchLayer path true req.path == .yes
    | _ => false

/-- The literal passed to `res.json` by `app.get('/api/portfolio', ...)`; the
numbers 1, 2, 3, 50 and 35 are written as binary64 bit patterns. -/
def portfolioDocument : JSValue :=
  .object
    [ (utf16 "reels", .array
        [ .object
            [ (utf16 "id", .number 0x3FF0000000000000),
              (utf16 "title", .string (utf16 "🎓 College Event Reel")),
              (utf16 "description",
                .string (utf16 "Capturing energy, crowd, and vibe in a hook-based montage")),
              (utf16 "type", .string (utf16 "college_event")),
              (utf16 "featured", .bool true) ],
          .object
            [ (utf16 "id", .number 0x4000000000000000),
              (utf16 "title", .string (utf16 "🎉 Birthday Reel")),
              (utf16 "description",
                .string (utf16 "Emotion-packed moments with smooth transitions and overlays")),
              (utf16 "videoUrl", .string
                (utf16 "https://drive.google.com/file/d/14ox5yl3d0lDTmzYLuz-1o_4o718DzZRZ/preview")),
              (utf16 "type", .string (utf16 "birthday")),
              (utf16 "featured", .bool true) ],
          .object
            [ (utf16 "id", .number 0x4008000000000000),
              (utf16 "title", .string (utf16 "☕ Cafe Promo Reel")),
              (utf16 "description", .string
                (utf16 "Highlighting food, ambience, and offers in a catchy scroll-stopper")),
              (utf16 "videoUrl", .string
                (utf16 "https://drive.google.com/file/d/1R6alWQNpvEoqgcmJ3uQMyGKyr_r5yyBC/preview")),
              (utf16 "type", .string (utf16 "cafe_promo")),
              (utf16 "featured", .bool true) ] ]),
      (utf16 "tools", .array
        [ .string (utf16 "Adobe Premiere Pro"), .string (utf16 "After Effects"),
          .string (utf16 "CapCut"), .string (utf16 "VN Editor"), .string (utf16 "Audacity") ]),
      (utf16 "stats", .object
        [ (utf16 "projectsCompleted", .number 0x4049000000000000),
          (utf16 "happyClients", .number 0x4041800000000000),
          (utf16 "avgEngagementRate", .string (utf16 "85%")) ]) ]

/-- What the client is sent. -/
inductive Answer where
  /-- The empty 204 with which `cors` ends a preflight. -/
  | preflight
  /-- What `express.static` does with the request it ends. -/
  | asset (path : List Char)
  /-- Status and JSON body sent by `res.status(code).json(value)`. -/
  | json (response : Response)
  /-- Status and headers of a response without its body: the answer to a `HEAD`
  request, or the 304 of a fresh conditional request. -/
  | bare (status : Nat)
  /-- The file of the `public` folder sent by `res.sendFile`, wholly or in the
  range the request asks for. -/
  | sendFile (name : String)
  /-- The automatic answer of Express to an `OPTIONS` request that no layer
  answered while some route matched its path: 200 with an `Allow` header. -/
  | allow
  /-- The 404 of Express for a request that no layer answered. -/
  | notFound
  /-- The answer of Express to an error raised by a layer or passed to `next`,
  with the status of the error. -/
  | error (status : Nat)

/-- The method `res.json` after `res.status`, as `res.send` finishes it: a fresh
`GET` or `HEAD` request to a 2xx response gets 304, and a `HEAD` request gets no
body. -/
def resJson (req : Request) (response : Response) : Answer :=
  if (req.method == .GET || req.method == .HEAD) &&
      (200 ≤ response.status && response.status < 300) && req.fresh then .bare 304
  else if req.method == .HEAD then .bare response.status
  else .json response

/-- The call `res.sendFile(path.join(publicDir, 'index.html'))`: the document (to
a `HEAD` request its status and headers only), a 304, or the answer of Express
to the error passed to `next` when sending fails. -/
def sendEntry (env : Env) (req : Request) : Answer :=
  match env.entry with
  | .sent => if req.method == .HEAD then .bare 200 else .sendFile "index.html"
  | .notModified => .bare 304
  | .failed status => .error status

/-- The body of each handler of `server.js`, run on the request. -/
def Handler.run (env : Env) (now : JSString) (req : Request) : Handler → Answer
  | .corsPreflight => .preflight
  | .staticAsset => .asset req.path
  | .health =>
      resJson req
        ⟨200, .object [(utf16 "status", .string (utf16 "OK")), (utf16 "timestamp", .string now)]⟩
  | .home => sendEntry env req
  | .contact => resJson req (contactHandler now req.body.value)
  | .portfolio => resJson req ⟨200, portfolioDocument⟩
  | .apiNotFound => resJson req ⟨404, failureBody "API endpoint not found"⟩
  | .spaFallback => sendEntry env req

/-- The application: the answer to a request handled at time `now`. -/
def serve (env : Env) (now : JSString) (req : Request) : Answer :=
  match dispatch env req with
  | .answer handler => handler.run env now req
  | .error status => .error status
  | .next => if req.method == .OPTIONS && someRoutePath req then .allow else .notFound

/-- Whether the answer is a not-found result: a 404 in any form. -/
def Answer.isNotFound : Answer → Bool
  | .notFound => true
  | .error status => status == 404
  | .json response => response.status == 404
  | .bare status => status == 404
  | _ => false

/-- A request path as it reaches the router: it starts with a slash and holds no
line terminator. -/
def WellFormedPath (p : List Char) : Prop :=
  p.head? = some '/' ∧ ∀ c ∈ p, isLineTerminator c = false

/-- A `public` folder that holds `index.html` and nothing else, on the paths
requested below: `express.static` sends the document for `/` and for
`/index.html`, and `res.sendFile` can send it. -/
def siteEnv (production : Bool) : Env :=
  ⟨production, fun p => p == "/".toList || p == "/index.html".toList, .sent⟩

/-- A `public` folder without `index.html`, outside production: `res.sendFile`
fails with the 404 of a missing file. -/
def emptyEnv : Env :=
  ⟨false, fun _ => false, .failed 404⟩

/-- A `public` folder, outside production, that holds `index.html` and a file at
`api/portfolio`. -/
def shadowEnv : Env :=
  ⟨false, fun p => p == "/".toList || p == "/index.html".toList || p == "/api/portfolio".toList,
    .sent⟩

/-! ## Vocabulary of the contact contract -/

/-- A field is missing: absent, `null` or the empty text. -/
def Missing (v : JSValue) : Prop :=
  v = .undefined ∨ v = .null ∨ v = .string []

/-- A field is text whose trimmed length is below `n`. -/
def ShortText (n : Nat) (v : JSValue) : Prop :=
  ∃ s, v = .string s ∧ (trim s).length < n

/-- The `name` check passes: text with trimmed length at least 2. -/
def NameValid (v : JSValue) : Prop :=
  ∃ s, v = .string s ∧ 2 ≤ (trim s).length

/-- The `email` check passes: text containing `'@'` with trimmed length at
least 5. -/
def EmailValid (v : JSValue) : Prop :=
  ∃ s, v = .string s ∧ atSign ∈ s ∧ 5 ≤ (trim s).length

/-- The `message` check passes: text with trimmed length at least 10. -/
def MessageValid (v : JSValue) : Prop :=
  ∃ s, v = .string s ∧ 10 ≤ (trim s).length

/-- All three required fields of the payload pass their checks. -/
def AllValid (body : JSValue) : Prop :=
  NameValid (getField body (utf16 "name")) ∧ EmailValid (getField body (utf16 "email")) ∧
    MessageValid (getField body (utf16 "message"))

/-- The success result: status 200 with `success: true`. -/
def IsSuccess (r : Response) : Prop :=
  r.status = 200 ∧ getField r.body (utf16 "success") = .bool true

/-- A rejection: a status other than 200 with `success: false`. -/
def IsRejection (r : Response) : Prop :=
  r.status ≠ 200 ∧ getField r.body (utf16 "success") = .bool false

/-- The payload of the two worked examples, with the given `name`. -/
def examplePayload (name : String) : JSValue :=
  .object [(utf16 "name", .string (utf16 name)), (utf16 "email", .string (utf16 "a@b.co")),
    (utf16 "message", .string (utf16 "Hello there, testing."))]

/-! ## Lemmas on the validation conditions -/

theorem nameFails_missing {v : JSValue} (h : Missing v) : nameFails v = .ok true := by
  rcases h with h | h | h <;> subst h <;> rfl

theorem nameFails_string (s : JSString) :
    nameFails (.string s) = .ok (decide ((trim s).length < 2)) := by
  cases s with
  | nil => rfl
  | cons a t => rfl

theorem nameFails_short {v : JSValue} (h : ShortText 2 v) : nameFails v = .ok true := by
  obtain ⟨s, rfl, hs⟩ := h
  rw [nameFails_string]; simp [hs]

theorem nameFails_valid {v : JSValue} (h : NameValid v) : nameFails v = .ok false := by
  obtain ⟨s, rfl, hs⟩ := h
  rw [nameFails_string]; simp; omega

theorem emailFails_string (s : JSString) :
    emailFails (.string s) = .ok (!s.contains atSign || decide ((trim s).length < 5)) := by
  cases s with
  | nil => rfl
  | cons a t =>
    simp only [emailFails, toBoolean, callIncludesAt, callTrim]
    cases h : List.contains (a :: t) atSign <;> simp [h] <;> rfl

theorem messageFails_string (s : JSString) :
    messageFails (.string s) = .ok (decide ((trim s).length < 10)) := by
  cases s with
  | nil => rfl
  | cons a t => rfl

theorem emailFails_missing {v : JSValue} (h : v = .undefined ∨ v = .null) :
    emailFails v = .ok true := by
  rcases h with h | h <;> subst h <;> rfl

theorem messageFails_missing {v : JSValue} (h : v = .undefined ∨ v = .null) :
    messageFails v = .ok true := by
  rcases h with h | h <;> subst h <;> rfl

theorem emailFails_valid {v : JSValue} (h : EmailValid v) : emailFails v = .ok false := by
  obtain ⟨s, rfl, hat, hs⟩ := h
  rw [emailFails_string]
  have hc : s.contains atSign = true := by simpa using hat
  have hl : decide ((trim s).length < 5) = false := by simpa using hs
  rw [hc, hl]; rfl

theorem messageFails_valid {v : JSValue} (h : MessageValid v) :
    messageFails v = .ok false := by
  obtain ⟨s, rfl, hs⟩ := h
  rw [messageFails_string]; simp; omega

theorem nameValid_of_nameFails {v : JSValue} (h : nameFails v = .ok false) : NameValid v := by
  cases v with
  | string s =>
    rw [nameFails_string] at h
    refine ⟨s, rfl, ?_⟩
    have h2 : decide ((trim s).length < 2) = false := by simpa using h
    simpa using h2
  | undefined => simp [nameFails, toBoolean, pure, Except.pure] at h
  | null => simp [nameFails, toBoolean, pure, Except.pure] at h
  | bool b => cases b <;> simp [nameFails, toBoolean, callTrim, pure, Except.pure, bind, Except.bind] at h
  | number bits =>
    by_cases hb : numberToBoolean bits = true <;>
      simp [nameFails, toBoolean, callTrim, hb, pure, Except.pure, bind, Except.bind] at h
  | array items => simp [nameFails, toBoolean, callTrim, pure, Except.pure, bind, Except.bind] at h
  | object props => simp [nameFails, toBoolean, callTrim, pure, Except.pure, bind, Except.bind] at h

theorem messageValid_of_messageFails {v : JSValue} (h : messageFails v = .ok false) :
    MessageValid v := by
  cases v with
  | string s =>
    rw [messageFails_string] at h
    refine ⟨s, rfl, ?_⟩
    have h2 : decide ((trim s).length < 10) = false := by simpa using h
    simpa using h2
  | undefined => simp [messageFails, toBoolean, pure, Except.pure] at h
  | null => simp [messageFails, toBoolean, pure, Except.pure] at h
  | bool b =>
    cases b <;> simp [messageFails, toBoolean, callTrim, pure, Except.pure, bind, Except.bind] at h
  | number bits =>
    by_cases hb : numberToBoolean bits = true <;>
      simp [messageFails, toBoolean, callTrim, hb, pure, Except.pure, bind, Except.bind] at h
  | array items =>
    simp [messageFails, toBoolean, callTrim, pure, Except.pure, bind, Except.bind] at h
  | object props =>
    simp [messageFails, toBoolean, callTrim, pure, Except.pure, bind, Except.bind] at h

theorem emailValid_of_emailFails {v : JSValue} (h : emailFails v = .ok false) :
    EmailValid v := by
  cases v with
  | string s =>
    rw [emailFails_string] at h
    have h2 : (!s.contains atSign || decide ((trim s).length < 5)) = false := by simpa using h
    simp only [Bool.or_eq_false_iff, Bool.not_eq_false', decide_eq_false_iff_not, not_lt] at h2
    exact ⟨s, rfl, by simpa using h2.1, h2.2⟩
  | undefined => simp [emailFails, toBoolean, pure, Except.pure] at h
  | null => simp [emailFails, toBoolean, pure, Except.pure] at h
  | bool b =>
    cases b <;>
      simp [emailFails, toBoolean, callIncludesAt, pure, Except.pure, bind, Except.bind] at h
  | number bits =>
    by_cases hb : numberToBoolean bits = true <;>
      simp [emailFails, toBoolean, callIncludesAt, hb, pure, Except.pure, bind, Except.bind] at h
  | array items =>
    simp only [emailFails, toBoolean, callIncludesAt, pure, Except.pure, bind, Except.bind] at h
    split at h
    · simp at h
    · split at h <;> simp [callTrim] at h
  | object props =>
    simp [emailFails, toBoolean, callIncludesAt, pure, Except.pure, bind, Except.bind] at h

theorem isNullish_of_getField {body : JSValue} {key s : JSString}
    (h : getField body key = .string s) : isNullish body = false := by
  cases body <;> first | rfl | simp [getField] at h

theorem contactTry_payload (now : JSString) {body : JSValue} (h : isNullish body = false) :
    contactTry now body = validateAndReply now (getField body (utf16 "name"))
      (getField body (utf16 "email")) (getField body (utf16 "message")) := by
  simp [contactTry, destructure, h, bind, Except.bind]

theorem contactTry_nullish (now : JSString) {body : JSValue} (h : isNullish body = true) :
    contactTry now body = .error .typeError := by
  simp [contactTry, destructure, h, bind, Except.bind]

theorem validateAndReply_name (now : JSString) {name : JSValue} (email message : JSValue)
    (h : nameFails name = .ok true) :
    validateAndReply now name email message =
      .ok ⟨400, failureBody "Name must be at least 2 characters."⟩ := by
  simp [validateAndReply, h, bind, Except.bind, pure, Except.pure]

theorem validateAndReply_email (now : JSString) {name email : JSValue} (message : JSValue)
    (hn : nameFails name = .ok false) (h : emailFails email = .ok true) :
    validateAndReply now name email message =
      .ok ⟨400, failureBody "Please provide a valid email address."⟩ := by
  simp [validateAndReply, hn, h, bind, Except.bind, pure, Except.pure]

theorem validateAndReply_message (now : JSString) {name email message : JSValue}
    (hn : nameFails name = .ok false) (he : emailFails email = .ok false)
    (h : messageFails message = .ok true) :
    validateAndReply now name email message =
      .ok ⟨400, failureBody "Message must be at least 10 characters."⟩ := by
  simp [validateAndReply, hn, he, h, bind, Except.bind, pure, Except.pure]

theorem validateAndReply_success (now : JSString) {name email message : JSValue} {s : JSString}
    (hs : name = .string s)
    (hn : nameFails name = .ok false) (he : emailFails email = .ok false)
    (h : messageFails message = .ok false) :
    validateAndReply now name email message = .ok ⟨200, successBody (trim s) now⟩ := by
  subst hs
  simp [validateAndReply, hn, he, h, bind, Except.bind, pure, Except.pure, callTrim]

theorem validateAndReply_error_name (now : JSString) {name : JSValue} (email message : JSValue)
    {e : JSError} (h : nameFails name = .error e) :
    validateAndReply now name email message = .error e := by
  simp [validateAndReply, h, bind, Except.bind]

theorem validateAndReply_error_email (now : JSString) {name email : JSValue}
    (message : JSValue) {e : JSError}
    (hn : nameFails name = .ok false) (h : emailFails email = .error e) :
    validateAndReply now name email message = .error e := by
  simp [validateAndReply, hn, h, bind, Except.bind, pure, Except.pure]

theorem validateAndReply_error_message (now : JSString) {name email message : JSValue}
    {e : JSError} (hn : nameFails name = .ok false) (he : emailFails email = .ok false)
    (h : messageFails message = .error e) :
    validateAndReply now name email message = .error e := by
  simp [validateAndReply, hn, he, h, bind, Except.bind, pure, Except.pure]

theorem contactHandler_of_ok {now : JSString} {body : JSValue} {r : Response}
    (h : contactTry now body = .ok r) : contactHandler now body = r := by
  simp [contactHandler, h]

theorem contactHandler_of_error {now : JSString} {body : JSValue} {e : JSError}
    (h : contactTry now body = .error e) :
    contactHandler now body = ⟨500, failureBody "Something went wrong."⟩ := by
  simp [contactHandler, h]

/-! ## The contact contract -/

/-- Every payload falls in exactly one of the five outcomes of the handler, and
the success outcome is the one of the payloads passing all three checks. -/
theorem contactHandler_cases (now : JSString) (body : JSValue) :
    (AllValid body ∧ ∃ n, getField body (utf16 "name") = .string n ∧
        contactHandler now body = ⟨200, successBody (trim n) now⟩) ∨
    (¬ AllValid body ∧
      (contactHandler now body = ⟨400, failureBody "Name must be at least 2 characters."⟩ ∨
       contactHandler now body = ⟨400, failureBody "Please provide a valid email address."⟩ ∨
       contactHandler now body = ⟨400, failureBody "Message must be at least 10 characters."⟩ ∨
       contactHandler now body = ⟨500, failureBody "Something went wrong."⟩)) := by
  by_cases hb : isNullish body = true
  · right
    refine ⟨?_, Or.inr (Or.inr (Or.inr (contactHandler_of_error (contactTry_nullish now hb))))⟩
    rintro ⟨⟨s, hs, _⟩, _⟩
    rw [isNullish_of_getField hs] at hb
    exact Bool.false_ne_true hb
  · have hb : isNullish body = false := by simpa using hb
    have hT := contactTry_payload now hb
    rcases hN : nameFails (getField body (utf16 "name")) with e | b
    · right
      refine ⟨?_, Or.inr (Or.inr (Or.inr (contactHandler_of_error
        (hT.trans (validateAndReply_error_name now _ _ hN)))))⟩
      rintro ⟨hv, _⟩
      rw [nameFails_valid hv] at hN
      cases hN
    cases b with
    | true =>
      right
      refine ⟨?_, Or.inl (contactHandler_of_ok (hT.trans (validateAndReply_name now _ _ hN)))⟩
      rintro ⟨hv, _⟩
      rw [nameFails_valid hv] at hN
      cases hN
    | false =>
      rcases hE : emailFails (getField body (utf16 "email")) with e | b
      · right
        refine ⟨?_, Or.inr (Or.inr (Or.inr (contactHandler_of_error
          (hT.trans (validateAndReply_error_email now _ hN hE)))))⟩
        rintro ⟨_, hv, _⟩
        rw [emailFails_valid hv] at hE
        cases hE
      cases b with
      | true =>
        right
        refine ⟨?_, Or.inr (Or.inl (contactHandler_of_ok
          (hT.trans (validateAndReply_email now _ hN hE))))⟩
        rintro ⟨_, hv, _⟩
        rw [emailFails_valid hv] at hE
        cases hE
      | false =>
        rcases hM : messageFails (getField body (utf16 "message")) with e | b
        · right
          refine ⟨?_, Or.inr (Or.inr (Or.inr (contactHandler_of_error
            (hT.trans (validateAndReply_error_message now hN hE hM)))))⟩
          rintro ⟨_, _, hv⟩
          rw [messageFails_valid hv] at hM
          cases hM
        cases b with
        | true =>
          right
          refine ⟨?_, Or.inr (Or.inr (Or.inl (contactHandler_of_ok
            (hT.trans (validateAndReply_message now hN hE hM)))))⟩
          rintro ⟨_, _, hv⟩
          rw [messageFails_valid hv] at hM
          cases hM
        | false =>
          left
          have hnv := nameValid_of_nameFails hN
          refine ⟨⟨hnv, emailValid_of_emailFails hE, messageValid_of_messageFails hM⟩, ?_⟩
          obtain ⟨n, hn, _⟩ := hnv
          exact ⟨n, hn, contactHandler_of_ok
            (hT.trans (validateAndReply_success now hn hN hE hM))⟩

/-- C1. Name rule: a payload whose `name` is missing (absent, `null` or empty) or
is text of trimmed length below 2 is answered with status 400 and the body
`{success: false, error: "Name must be at least 2 characters."}`, whatever its
other fields hold. -/
theorem contact_name_rule (now : JSString) (body : JSValue)
    (hbody : isNullish body = false)
    (hname : Missing (getField body (utf16 "name")) ∨
      ShortText 2 (getField body (utf16 "name"))) :
    contactHandler now body =
      ⟨400, .object [(utf16 "success", .bool false),
        (utf16 "error", .string (utf16 "Name must be at least 2 characters."))]⟩ := by
  have hN : nameFails (getField body (utf16 "name")) = .ok true :=
    hname.elim nameFails_missing nameFails_short
  exact contactHandler_of_ok ((contactTry_payload now hbody).trans
    (validateAndReply_name now _ _ hN))

/-- The name rule on the worked example `{name: "A", email: "a@b.co", message:
"Hello there, testing."}`. -/
theorem contact_name_rule_witness :
    ShortText 2 (getField (examplePayload "A") (utf16 "name")) ∧
    contactHandler (utf16 "2024-01-01T00:00:00.000Z") (examplePayload "A") =
      ⟨400, .object [(utf16 "success", .bool false),
        (utf16 "error", .string (utf16 "Name must be at least 2 characters."))]⟩ :=
  ⟨⟨utf16 "A", rfl, by decide⟩,
    contact_name_rule _ (examplePayload "A") rfl (Or.inr ⟨utf16 "A", rfl, by decide⟩)⟩

/-- C2. Email rule: with a valid `name`, a payload whose `email` is missing, or is
text without `'@'`, or is text of trimmed length below 5, is answered with status
400 and the body `{success: false, error: "Please provide a valid email
address."}`, whatever `message` and `project` hold. -/
theorem contact_email_rule (now : JSString) (body : JSValue)
    (hname : NameValid (getField body (utf16 "name")))
    (hemail : Missing (getField body (utf16 "email")) ∨
      (∃ s, getField body (utf16 "email") = .string s ∧ atSign ∉ s) ∨
      ShortText 5 (getField body (utf16 "email"))) :
    contactHandler now body =
      ⟨400, .object [(utf16 "success", .bool false),
        (utf16 "error", .string (utf16 "Please provide a valid email address."))]⟩ := by
  have hbody : isNullish body = false := by
    obtain ⟨s, hs, _⟩ := hname
    exact isNullish_of_getField hs
  have hE : emailFails (getField body (utf16 "email")) = .ok true := by
    rcases hemail with h | ⟨s, hs, hat⟩ | ⟨s, hs, hlen⟩
    · rcases h with h | h | h
      · exact emailFails_missing (Or.inl h)
      · exact emailFails_missing (Or.inr h)
      · rw [h]; rfl
    · rw [hs, emailFails_string]
      have hc : s.contains atSign = false := by simpa using hat
      rw [hc]; rfl
    · rw [hs, emailFails_string]
      have hl : decide ((trim s).length < 5) = true := by simpa using hlen
      rw [hl, Bool.or_true]
  exact contactHandler_of_ok ((contactTry_payload now hbody).trans
    (validateAndReply_email now _ (nameFails_valid hname) hE))

/-- The email rule on a payload with a good name and the email `"ab.co"`. -/
theorem contact_email_rule_witness :
    NameValid (getField
      (.object [(utf16 "name", .string (utf16 "Al")), (utf16 "email", .string (utf16 "ab.co"))])
      (utf16 "name")) ∧
    contactHandler []
      (.object [(utf16 "name", .string (utf16 "Al")), (utf16 "email", .string (utf16 "ab.co"))]) =
      ⟨400, .object [(utf16 "success", .bool false),
        (utf16 "error", .string (utf16 "Please provide a valid email address."))]⟩ :=
  ⟨⟨utf16 "Al", rfl, by decide⟩,
    contact_email_rule [] _ ⟨utf16 "Al", rfl, by decide⟩
      (Or.inr (Or.inl ⟨utf16 "ab.co", rfl, by decide⟩))⟩

/-- C3. Message rule: with a valid `name` and a valid `email`, a payload whose
`message` is missing or is text of trimmed length below 10 is answered with
status 400 and the body `{success: false, error: "Message must be at least 10
characters."}`. -/
theorem contact_message_rule (now : JSString) (body : JSValue)
    (hname : NameValid (getField body (utf16 "name")))
    (hemail : EmailValid (getField body (utf16 "email")))
    (hmessage : Missing (getField body (utf16 "message")) ∨
      ShortText 10 (getField body (utf16 "message"))) :
    contactHandler now body =
      ⟨400, .object [(utf16 "success", .bool false),
        (utf16 "error", .string (utf16 "Message must be at least 10 characters."))]⟩ := by
  have hbody : isNullish body = false := by
    obtain ⟨s, hs, _⟩ := hname
    exact isNullish_of_getField hs
  have hM : messageFails (getField body (utf16 "message")) = .ok true := by
    rcases hmessage with h | ⟨s, hs, hlen⟩
    · rcases h with h | h | h
      · exact messageFails_missing (Or.inl h)
      · exact messageFails_missing (Or.inr h)
      · rw [h]; rfl
    · rw [hs, messageFails_string]
      have hl : decide ((trim s).length < 10) = true := by simpa using hlen
      rw [hl]
  exact contactHandler_of_ok ((contactTry_payload now hbody).trans
    (validateAndReply_message now (nameFails_valid hname) (emailFails_valid hemail) hM))

/-- The message rule on a payload whose message is nine characters between
spaces. -/
theorem contact_message_rule_witness :
    ShortText 10 (getField
      (.object [(utf16 "name", .string (utf16 "Al")), (utf16 "email", .string (utf16 "a@b.co")),
        (utf16 "message", .string (utf16 "  too short  "))]) (utf16 "message")) ∧
    contactHandler []
      (.object [(utf16 "name", .string (utf16 "Al")), (utf16 "email", .string (utf16 "a@b.co")),
        (utf16 "message", .string (utf16 "  too short  "))]) =
      ⟨400, .object [(utf16 "success", .bool false),
        (utf16 "error", .string (utf16 "Message must be at least 10 characters."))]⟩ :=
  ⟨⟨utf16 "  too short  ", rfl, by decide⟩,
    contact_message_rule [] _ ⟨utf16 "Al", rfl, by decide⟩
      ⟨utf16 "a@b.co", rfl, by decide, by decide⟩
      (Or.inr ⟨utf16 "  too short  ", rfl, by decide⟩)⟩

/-- C4. No partial acceptance: the response is the success result (status 200,
`success: true`) exactly when `name`, `email` and `message` all pass their
checks, and every other payload is rejected with `success: false`. -/
theorem contact_no_partial_acceptance (now : JSString) (body : JSValue) :
    (IsSuccess (contactHandler now body) ↔ AllValid body) ∧
    (¬ AllValid body → IsRejection (contactHandler now body)) := by
  rcases contactHandler_cases now body with ⟨hv, n, _, hr⟩ | ⟨hv, hr | hr | hr | hr⟩
  · exact ⟨⟨fun _ => hv, fun _ => by rw [hr]; exact ⟨rfl, rfl⟩⟩, fun h => absurd hv h⟩
  all_goals
    rw [hr]
    refine ⟨⟨fun h => ?_, fun h => absurd h hv⟩, fun _ => ⟨by decide, rfl⟩⟩
    exact absurd h.1 (by decide)

/-- The dichotomy on the accepted example and on a payload that fails only the
message check. -/
theorem contact_no_partial_acceptance_witness :
    IsSuccess (contactHandler [] (examplePayload "Al")) ∧
    IsRejection (contactHandler []
      (.object [(utf16 "name", .string (utf16 "Al")), (utf16 "email", .string (utf16 "a@b.co")),
        (utf16 "message", .string (utf16 "too short"))])) :=
  ⟨(contact_no_partial_acceptance [] (examplePayload "Al")).1.2
      ⟨⟨utf16 "Al", rfl, by decide⟩, ⟨utf16 "a@b.co", rfl, by decide, by decide⟩,
        ⟨utf16 "Hello there, testing.", rfl, by decide⟩⟩,
    ⟨by decide, rfl⟩⟩

/-- C5, as the code has it: for a payload passing all three checks the
acknowledgment is `"Thanks "`, the trimmed name, then `"! I’ll get back to you
soon."`, whose apostrophe is the typographic U+2019 of the template literal; the
whole success response is status 200 with that message and the capture time. -/
theorem contact_acknowledgment_text (now : JSString) (body : JSValue)
    (hvalid : AllValid body) :
    ∃ n, getField body (utf16 "name") = .string n ∧
      contactHandler now body =
        ⟨200, .object [(utf16 "success", .bool true),
          (utf16 "message",
            .string (utf16 "Thanks " ++ trim n ++ utf16 "! I’ll get back to you soon.")),
          (utf16 "timestamp", .string now)]⟩ := by
  rcases contactHandler_cases now body with ⟨_, n, hn, hr⟩ | ⟨hv, _⟩
  · exact ⟨n, hn, hr⟩
  · exact absurd hvalid hv

/-- The acknowledgment of a name given with surrounding blanks: the trimmed name
is interpolated. -/
theorem contact_acknowledgment_text_witness :
    ∃ n, getField (examplePayload "  Al ") (utf16 "name") = .string n ∧
      contactHandler (utf16 "2024-01-01T00:00:00.000Z") (examplePayload "  Al ") =
        ⟨200, .object [(utf16 "success", .bool true),
          (utf16 "message",
            .string (utf16 "Thanks " ++ trim n ++ utf16 "! I’ll get back to you soon.")),
          (utf16 "timestamp", .string (utf16 "2024-01-01T00:00:00.000Z"))]⟩ :=
  contact_acknowledgment_text _ (examplePayload "  Al ")
    ⟨⟨utf16 "  Al ", rfl, by decide⟩, ⟨utf16 "a@b.co", rfl, by decide, by decide⟩,
      ⟨utf16 "Hello there, testing.", rfl, by decide⟩⟩

/-- C5 as stated fails: on `{name: "Al", email: "a@b.co", message: "Hello there,
testing."}` the acknowledgment is `"Thanks Al! I’ll get back to you soon."` with
U+2019, which is not the string with the ASCII apostrophe U+0027. -/
theorem contact_acknowledgment_ascii_apostrophe_fails :
    getField (contactHandler [] (examplePayload "Al")).body (utf16 "message") =
        .string (utf16 "Thanks Al! I’ll get back to you soon.") ∧
    getField (contactHandler [] (examplePayload "Al")).body (utf16 "message") ≠
        .string (utf16 "Thanks Al! I\x27ll get back to you soon.") := by
  refine ⟨rfl, ?_⟩
  have h : getField (contactHandler [] (examplePayload "Al")).body (utf16 "message") =
      .string (utf16 "Thanks Al! I’ll get back to you soon.") := rfl
  rw [h]
  intro hEq
  exact absurd (JSValue.string.inj hEq) (by decide)

/-- C6. Internal failure: when the validation raises a fault, in particular when
`name` is a truthy value that is not text (a nonzero number, `true`, an array, an
object), the fault is caught and the response is status 500 with the body
`{success: false, error: "Something went wrong."}`. -/
theorem contact_internal_failure (now : JSString) (body : JSValue)
    (hfault : (∃ e, contactTry now body = .error e) ∨
      (isNullish body = false ∧ toBoolean (getField body (utf16 "name")) = true ∧
        ∀ s, getField body (utf16 "name") ≠ .string s)) :
    (∃ e, contactTry now body = .error e) ∧
    contactHandler now body =
      ⟨500, .object [(utf16 "success", .bool false),
        (utf16 "error", .string (utf16 "Something went wrong."))]⟩ := by
  have key : ∃ e, contactTry now body = .error e := by
    rcases hfault with h | ⟨hb, ht, hs⟩
    · exact h
    · refine ⟨.typeError, ?_⟩
      rw [contactTry_payload now hb]
      apply validateAndReply_error_name
      generalize getField body (utf16 "name") = v at ht hs
      cases v with
      | string s => exact absurd rfl (hs s)
      | undefined => simp [toBoolean] at ht
      | null => simp [toBoolean] at ht
      | bool b => simp [toBoolean] at ht; subst ht; rfl
      | number bits =>
        simp only [toBoolean] at ht
        simp [nameFails, toBoolean, ht, callTrim, bind, Except.bind]
      | array items => rfl
      | object props => rfl
  obtain ⟨e, he⟩ := key
  exact ⟨⟨e, he⟩, contactHandler_of_error he⟩

/-- The internal failure on `{name: 12, email: "a@b.co", message: "Hello there,
testing."}`; `0x4028000000000000` is the number 12. -/
theorem contact_internal_failure_witness :
    toBoolean (.number 0x4028000000000000) = true ∧
    contactHandler []
      (.object [(utf16 "name", .number 0x4028000000000000),
        (utf16 "email", .string (utf16 "a@b.co")),
        (utf16 "message", .string (utf16 "Hello there, testing."))]) =
      ⟨500, .object [(utf16 "success", .bool false),
        (utf16 "error", .string (utf16 "Something went wrong."))]⟩ :=
  ⟨by decide,
    (contact_internal_failure []
      (.object [(utf16 "name", .number 0x4028000000000000),
        (utf16 "email", .string (utf16 "a@b.co")),
        (utf16 "message", .string (utf16 "Hello there, testing."))])
      (Or.inr ⟨rfl, by decide, fun s h => by
        have h2 : JSValue.number 0x4028000000000000 = JSValue.string s := h
        cases h2⟩)).2⟩

/-- C10. `project` is an unvalidated pass-through: two payloads with the same
`name`, `email` and `message`, handled at the same time, get the same status and
body whatever their `project` fields are, and the response has no `project`
entry. -/
theorem contact_project_passthrough (now : JSString) (body₁ body₂ : JSValue)
    (h₁ : isNullish body₁ = false) (h₂ : isNullish body₂ = false)
    (hname : getField body₁ (utf16 "name") = getField body₂ (utf16 "name"))
    (hemail : getField body₁ (utf16 "email") = getField body₂ (utf16 "email"))
    (hmessage : getField body₁ (utf16 "message") = getField body₂ (utf16 "message")) :
    contactHandler now body₁ = contactHandler now body₂ ∧
    getField (contactHandler now body₁).body (utf16 "project") = .undefined := by
  constructor
  · unfold contactHandler
    rw [contactTry_payload now h₁, contactTry_payload now h₂, hname, hemail, hmessage]
  · rcases contactHandler_cases now body₁ with ⟨_, n, _, hr⟩ | ⟨_, hr | hr | hr | hr⟩ <;>
      rw [hr] <;> rfl

/-- The accepted example with a `project` that is an object and without any
`project`: same response. -/
theorem contact_project_passthrough_witness :
    contactHandler []
      (.object [(utf16 "project", .object [(utf16 "trim", .number 0)]),
        (utf16 "name", .string (utf16 "Al")), (utf16 "email", .string (utf16 "a@b.co")),
        (utf16 "message", .string (utf16 "Hello there, testing."))]) =
    contactHandler [] (examplePayload "Al") :=
  (contact_project_passthrough []
    (.object [(utf16 "project", .object [(utf16 "trim", .number 0)]),
      (utf16 "name", .string (utf16 "Al")), (utf16 "email", .string (utf16 "a@b.co")),
      (utf16 "message", .string (utf16 "Hello there, testing."))])
    (examplePayload "Al") rfl rfl rfl rfl rfl).1


/-! ## Lemmas on route paths -/

theorem tokens_health : tokens (corePath "/health") = "/health".toList.map Token.lit := rfl

theorem tokens_root : tokens (corePath "/") = [] := rfl

theorem tokens_contact :
    tokens (corePath "/api/contact") = "/api/contact".toList.map Token.lit := rfl

theorem tokens_portfolio :
    tokens (corePath "/api/portfolio") = "/api/portfolio".toList.map Token.lit := rfl

theorem tokens_apiStar : tokens (corePath "/api/*") =
    [.lit '/', .lit 'a', .lit 'p', .lit 'i', .lit '/', .star] := rfl

theorem tokens_star : tokens (corePath "/*") = [.lit '/', .star] := rfl

theorem matchTokens_lit_cons (p : Char) (ts : List Token)
    (k : List Char → Option (List (List Char))) (c : Char) (cs : List Char) :
    matchTokens (.lit p :: ts) k (c :: cs) =
      if sameLetter c p then matchTokens ts k cs else none := rfl

theorem matchTokens_lit_nil (p : Char) (ts : List Token)
    (k : List Char → Option (List (List Char))) :
    matchTokens (.lit p :: ts) k [] = none := rfl

/-- On a text without line terminators the greedy group takes everything when
the rest of the expression accepts the empty remainder. -/
theorem starThen_of_clean {γ : Type} (k : List Char → Option γ) (r : γ) (hk : k [] = some r) :
    ∀ input : List Char, (∀ c ∈ input, isLineTerminator c = false) →
      starThen k input = some (input, r)
  | [], _ => by simp [starThen, hk]
  | c :: cs, h => by
    have hc : isLineTerminator c = false := h c (List.mem_cons_self _ _)
    have ih := starThen_of_clean k r hk cs (fun d hd => h d (List.mem_cons_of_mem _ hd))
    simp [starThen, hc, ih]

/-- A route path made of literal characters captures no group. -/
theorem matchTokens_literal_groups :
    ∀ (cs input : List Char) (groups : List (List Char)),
      matchTokens (cs.map Token.lit) acceptEnd input = some groups → groups = []
  | [], input, groups, h => by
    simp only [List.map_nil, matchTokens, acceptEnd] at h
    split_ifs at h
    exact (Option.some.inj h).symm
  | c :: cs, [], groups, h => by simp [matchTokens] at h
  | c :: cs, d :: ds, groups, h => by
    simp only [List.map_cons, matchTokens_lit_cons] at h
    split_ifs at h
    exact matchTokens_literal_groups cs ds groups h

theorem matchLayer_literal (path : String) (cs : List Char)
    (hpath : tokens (corePath path) = cs.map Token.lit) (p : List Char) :
    matchLayer path true p ≠ .failed := by
  unfold matchLayer regexpExec
  rw [hpath]
  simp only [if_true]
  rcases h : matchTokens (cs.map Token.lit) acceptEnd p with _ | groups
  · simp
  · have hg := matchTokens_literal_groups cs p groups h
    subst hg
    simp

theorem matchTokens_lit_some {p : Char} {ts : List Token}
    {k : List Char → Option (List (List Char))} {input : List Char}
    {groups : List (List Char)} (h : matchTokens (.lit p :: ts) k input = some groups) :
    ∃ c cs, input = c :: cs ∧ sameLetter c p = true ∧ matchTokens ts k cs = some groups := by
  cases input with
  | nil => simp [matchTokens] at h
  | cons c cs =>
    rw [matchTokens_lit_cons] at h
    split_ifs at h with hc
    exact ⟨c, cs, rfl, hc, h⟩

/-- On a path without line terminators, whatever matches a route path below
`/api/` is matched by `/api/*` as a prefix. -/
theorem apiStar_of_api_literal (ts : List Token) (k : List Char → Option (List (List Char)))
    (p : List Char) (groups : List (List Char))
    (hclean : ∀ c ∈ p, isLineTerminator c = false)
    (h : matchTokens (.lit '/' :: .lit 'a' :: .lit 'p' :: .lit 'i' :: .lit '/' :: ts) k p =
      some groups) :
    matchLayer "/api/*" false p ≠ .no := by
  obtain ⟨c1, p1, rfl, h1, h⟩ := matchTokens_lit_some h
  obtain ⟨c2, p2, rfl, h2, h⟩ := matchTokens_lit_some h
  obtain ⟨c3, p3, rfl, h3, h⟩ := matchTokens_lit_some h
  obtain ⟨c4, p4, rfl, h4, h⟩ := matchTokens_lit_some h
  obtain ⟨c5, rest, rfl, h5, _⟩ := matchTokens_lit_some h
  have hrest : ∀ c ∈ rest, isLineTerminator c = false := fun c hc => hclean c (by simp [hc])
  have hs : starThen (matchTokens [] acceptPrefix) rest = some (rest, []) :=
    starThen_of_clean (matchTokens [] acceptPrefix) [] rfl rest hrest
  have he : regexpExec "/api/*" false (c1 :: c2 :: c3 :: c4 :: c5 :: rest) = some [rest] := by
    unfold regexpExec
    rw [tokens_apiStar]
    simp only [matchTokens_lit_cons, h1, h2, h3, h4, h5, if_true]
    show (starThen (matchTokens [] acceptPrefix) rest).map (fun found => found.1 :: found.2) = _
    rw [hs]
    rfl
  unfold matchLayer
  rw [he]
  show (if [rest].all decodes = true then Match.yes else Match.failed) ≠ Match.no
  split_ifs <;> simp

theorem regexpExec_apiStar_under_api (rest : List Char)
    (hclean : ∀ c ∈ rest, isLineTerminator c = false) :
    regexpExec "/api/*" false ("/api/".toList ++ rest) = some [rest] := by
  unfold regexpExec
  rw [tokens_apiStar]
  have hs : starThen (matchTokens [] acceptPrefix) rest = some (rest, []) :=
    starThen_of_clean (matchTokens [] acceptPrefix) [] rfl rest hclean
  show (starThen (matchTokens [] acceptPrefix) rest).map (fun found => found.1 :: found.2) = _
  rw [hs]
  rfl

theorem matchLayer_apiStar_under_api (rest : List Char)
    (hclean : ∀ c ∈ rest, isLineTerminator c = false) (hdecodes : decodes rest = true) :
    matchLayer "/api/*" false ("/api/".toList ++ rest) = .yes := by
  unfold matchLayer
  rw [regexpExec_apiStar_under_api rest hclean]
  simp [hdecodes]

theorem matchLayer_health_under_api (rest : List Char) :
    matchLayer "/health" true ("/api/".toList ++ rest) = .no := rfl

theorem matchLayer_root_under_api (rest : List Char) :
    matchLayer "/" true ("/api/".toList ++ rest) = .no := rfl

theorem matchLayer_star (p : List Char) (hp : WellFormedPath p) (hdecodes : decodes p.tail = true) :
    matchLayer "/*" true p = .yes := by
  obtain ⟨hhead, hclean⟩ := hp
  cases p with
  | nil => simp at hhead
  | cons c cs =>
    have hc : c = '/' := by simpa using hhead
    subst hc
    have hs : starThen (matchTokens [] acceptEnd) cs = some (cs, []) :=
      starThen_of_clean (matchTokens [] acceptEnd) [] rfl cs (fun d hd => hclean d (List.mem_cons_of_mem _ hd))
    have he : regexpExec "/*" true ('/' :: cs) = some [cs] := by
      unfold regexpExec
      rw [tokens_star]
      show (starThen (matchTokens [] acceptEnd) cs).map (fun found => found.1 :: found.2) = _
      rw [hs]
      rfl
    unfold matchLayer
    rw [he]
    have hd : decodes cs = true := hdecodes
    simp [hd]

theorem matchLayer_no_of_apiStar_no (path : String) (ts : List Token)
    (hpath : tokens (corePath path) =
      .lit '/' :: .lit 'a' :: .lit 'p' :: .lit 'i' :: .lit '/' :: ts)
    (p : List Char) (hclean : ∀ c ∈ p, isLineTerminator c = false)
    (hapi : matchLayer "/api/*" false p = .no) :
    matchLayer path true p = .no := by
  unfold matchLayer regexpExec
  rw [hpath]
  rcases h : matchTokens (.lit '/' :: .lit 'a' :: .lit 'p' :: .lit 'i' :: .lit '/' :: ts)
      (if true = true then acceptEnd else acceptPrefix) p with _ | groups
  · rfl
  · exact absurd hapi (apiStar_of_api_literal ts _ p groups hclean h)

/-! ## Lemmas on the layers -/

theorem runStack_cons_next {env : Env} {req : Request} {layer : Layer} (rest : List Layer)
    (h : layer.step env req = .next) :
    runStack env req (layer :: rest) = runStack env req rest := by
  simp [runStack, h]

theorem runStack_cons_answer {env : Env} {req : Request} {layer : Layer} (rest : List Layer)
    {handler : Handler} (h : layer.step env req = .answer handler) :
    runStack env req (layer :: rest) = .answer handler := by
  simp [runStack, h]

theorem runStack_cons_error {env : Env} {req : Request} {layer : Layer} (rest : List Layer)
    {status : Nat} (h : layer.step env req = .error status) :
    runStack env req (layer :: rest) = .error status := by
  simp [runStack, h]

/-- When the stack ends in a handler that the first layer does not call, the
first layer passed the request on. -/
theorem runStack_cons_inv {env : Env} {req : Request} {layer : Layer} {rest : List Layer}
    {handler : Handler} (h : runStack env req (layer :: rest) = .answer handler)
    (hne : layer.step env req ≠ .answer handler) :
    layer.step env req = .next ∧ runStack env req rest = .answer handler := by
  rcases hs : layer.step env req with _ | x | s
  · exact ⟨rfl, by rw [runStack_cons_next rest hs] at h; exact h⟩
  · rw [runStack_cons_answer rest hs] at h
    exact absurd (hs.trans h) hne
  · rw [runStack_cons_error rest hs] at h
    cases h

theorem step_cors_next {env : Env} {req : Request}
    (h : env.production = true ∨ req.method ≠ .OPTIONS) : Layer.step env req .cors = .next := by
  rcases h with h | h <;> simp [Layer.step, h]

theorem step_json_parsed {env : Env} {req : Request} {v : JSValue} (h : req.body = .parsed v) :
    Layer.step env req .json = .next := by
  simp [Layer.step, h]

theorem step_urlencoded_parsed {env : Env} {req : Request} {v : JSValue}
    (h : req.body = .parsed v) : Layer.step env req .urlencoded = .next := by
  simp [Layer.step, h]

theorem step_static_next {env : Env} {req : Request}
    (h : req.method = .GET ∨ req.method = .HEAD → env.asset req.path = false) :
    Layer.step env req .static = .next := by
  by_cases hm : req.method = .GET ∨ req.method = .HEAD
  · simp [Layer.step, h hm]
  · have hg : req.method ≠ .GET := fun e => hm (Or.inl e)
    have hh : req.method ≠ .HEAD := fun e => hm (Or.inr e)
    simp [Layer.step, hg, hh]

theorem step_route_no {env : Env} {req : Request} {m : Method} {path : String}
    {handler : Handler} (h : matchLayer path true req.path = .no) :
    Layer.step env req (.route m path handler) = .next := by
  simp [Layer.step, h]

theorem step_route_yes {env : Env} {req : Request} {m : Method} {path : String}
    {handler : Handler} (h : matchLayer path true req.path = .yes)
    (hm : handlesMethod m req.method = true) :
    Layer.step env req (.route m path handler) = .answer handler := by
  simp [Layer.step, h, hm]

theorem step_route_next {env : Env} {req : Request} {m : Method} {path : String}
    {handler : Handler} (hlit : matchLayer path true req.path ≠ .failed)
    (h : ¬ (matchLayer path true req.path = .yes ∧ handlesMethod m req.method = true)) :
    Layer.step env req (.route m path handler) = .next := by
  rcases hl : matchLayer path true req.path with _ | _ | _
  · exact step_route_no hl
  · have hm : handlesMethod m req.method = false := by
      cases hh : handlesMethod m req.method
      · rfl
      · exact absurd ⟨hl, hh⟩ h
    simp [Layer.step, hl, hm]
  · exact absurd hl hlit

theorem step_route_next_inv {env : Env} {req : Request} {m : Method} {path : String}
    {handler : Handler} (h : Layer.step env req (.route m path handler) = .next) :
    ¬ (matchLayer path true req.path = .yes ∧ handlesMethod m req.method = true) := by
  rintro ⟨hl, hm⟩
  rw [step_route_yes hl hm] at h
  cases h

theorem step_use_yes {env : Env} {req : Request} {path : String} {handler : Handler}
    (h : matchLayer path false req.path = .yes) :
    Layer.step env req (.use path handler) = .answer handler := by
  simp [Layer.step, h]

theorem step_use_no {env : Env} {req : Request} {path : String} {handler : Handler}
    (h : matchLayer path false req.path = .no) :
    Layer.step env req (.use path handler) = .next := by
  simp [Layer.step, h]

theorem step_cors_answer {env : Env} {req : Request} {x : Handler}
    (h : Layer.step env req .cors = .answer x) : x = .corsPreflight := by
  simp only [Layer.step] at h
  split_ifs at h
  exact (Step.answer.inj h).symm

theorem step_json_answer {env : Env} {req : Request} {x : Handler} :
    Layer.step env req .json ≠ .answer x := by
  simp only [Layer.step]
  split <;> simp

theorem step_urlencoded_answer {env : Env} {req : Request} {x : Handler} :
    Layer.step env req .urlencoded ≠ .answer x := by
  simp only [Layer.step]
  split <;> simp

theorem step_static_answer {env : Env} {req : Request} {x : Handler}
    (h : Layer.step env req .static = .answer x) : x = .staticAsset := by
  simp only [Layer.step] at h
  split_ifs at h
  exact (Step.answer.inj h).symm

theorem step_route_answer {env : Env} {req : Request} {m : Method} {path : String}
    {handler x : Handler} (h : Layer.step env req (.route m path handler) = .answer x) :
    x = handler := by
  simp only [Layer.step] at h
  split at h
  · cases h
  · cases h
  · split_ifs at h
    exact (Step.answer.inj h).symm

theorem dispatch_parsed {env : Env} {req : Request} {v : JSValue}
    (hcors : env.production = true ∨ req.method ≠ .OPTIONS) (hbody : req.body = .parsed v)
    (hstatic : req.method = .GET ∨ req.method = .HEAD → env.asset req.path = false) :
    dispatch env req = runStack env req
      [ .route .GET "/health" .health, .route .GET "/" .home,
        .route .POST "/api/contact" .contact, .route .GET "/api/portfolio" .portfolio,
        .use "/api/*" .apiNotFound, .route .GET "/*" .spaFallback ] := by
  unfold dispatch stack
  rw [runStack_cons_next _ (step_cors_next hcors), runStack_cons_next _ (step_json_parsed hbody),
    runStack_cons_next _ (step_urlencoded_parsed hbody),
    runStack_cons_next _ (step_static_next hstatic)]

theorem dispatch_static {env : Env} {req : Request} {v : JSValue}
    (hcors : env.production = true ∨ req.method ≠ .OPTIONS) (hbody : req.body = .parsed v)
    (hmethod : req.method = .GET ∨ req.method = .HEAD) (hasset : env.asset req.path = true) :
    dispatch env req = .answer .staticAsset := by
  unfold dispatch stack
  rw [runStack_cons_next _ (step_cors_next hcors), runStack_cons_next _ (step_json_parsed hbody),
    runStack_cons_next _ (step_urlencoded_parsed hbody)]
  apply runStack_cons_answer
  rcases hmethod with h | h <;> simp [Layer.step, h, hasset]

theorem dispatch_jsonRejected {env : Env} {req : Request} {status : Nat}
    (hcors : env.production = true ∨ req.method ≠ .OPTIONS)
    (hbody : req.body = .jsonRejected status) : dispatch env req = .error status := by
  unfold dispatch stack
  rw [runStack_cons_next _ (step_cors_next hcors)]
  apply runStack_cons_error
  simp [Layer.step, hbody]

theorem dispatch_urlencodedRejected {env : Env} {req : Request} {status : Nat}
    (hcors : env.production = true ∨ req.method ≠ .OPTIONS)
    (hbody : req.body = .urlencodedRejected status) : dispatch env req = .error status := by
  unfold dispatch stack
  rw [runStack_cons_next _ (step_cors_next hcors)]
  have hj : Layer.step env req .json = .next := by simp [Layer.step, hbody]
  rw [runStack_cons_next _ hj]
  apply runStack_cons_error
  simp [Layer.step, hbody]

/-! ## The routing contract -/

/-- C7, as the code has it: a request whose path is `/api/` followed by text that
percent-decodes, whose body the body parsers accept, that the CORS middleware
does not end as a preflight (`OPTIONS` outside production), for which
`express.static` serves nothing and that neither the `POST /api/contact` nor the
`GET /api/portfolio` route matches, reaches the API catch-all and is answered
with status 404 and the body `{success: false, error: "API endpoint not found"}`,
the same for every such method and path; to a `HEAD` request the body is not
transmitted. -/
theorem api_not_found_uniform (env : Env) (now : JSString) (method : Method)
    (p rest : List Char) (v : JSValue) (fresh : Bool)
    (hunder : p = "/api/".toList ++ rest)
    (hclean : ∀ c ∈ rest, isLineTerminator c = false)
    (hdecodes : decodes rest = true)
    (hcors : env.production = true ∨ method ≠ .OPTIONS)
    (hasset : method = .GET ∨ method = .HEAD → env.asset p = false)
    (hcontact : ¬ (matchLayer "/api/contact" true p = .yes ∧ handlesMethod .POST method = true))
    (hportfolio :
      ¬ (matchLayer "/api/portfolio" true p = .yes ∧ handlesMethod .GET method = true)) :
    dispatch env ⟨method, p, .parsed v, fresh⟩ = .answer .apiNotFound ∧
    serve env now ⟨method, p, .parsed v, fresh⟩ =
      if method = .HEAD then .bare 404
      else .json ⟨404, .object [(utf16 "success", .bool false),
        (utf16 "error", .string (utf16 "API endpoint not found"))]⟩ := by
  have hHealth : matchLayer "/health" true p = .no := hunder ▸ matchLayer_health_under_api rest
  have hRoot : matchLayer "/" true p = .no := hunder ▸ matchLayer_root_under_api rest
  have hStar : matchLayer "/api/*" false p = .yes :=
    hunder ▸ matchLayer_apiStar_under_api rest hclean hdecodes
  have hd : dispatch env ⟨method, p, .parsed v, fresh⟩ = .answer .apiNotFound := by
    rw [dispatch_parsed hcors rfl hasset,
      runStack_cons_next _ (step_route_no hHealth), runStack_cons_next _ (step_route_no hRoot),
      runStack_cons_next _
        (step_route_next (matchLayer_literal _ _ tokens_contact p) hcontact),
      runStack_cons_next _
        (step_route_next (matchLayer_literal _ _ tokens_portfolio p) hportfolio)]
    exact runStack_cons_answer _ (step_use_yes hStar)
  refine ⟨hd, ?_⟩
  simp only [serve, hd]
  cases method <;> cases fresh <;> rfl

/-- The uniform answer on `GET /api/contact` outside production. -/
theorem api_not_found_uniform_witness :
    decodes "contact".toList = true ∧
    serve (siteEnv false) [] ⟨.GET, "/api/contact".toList, .parsed (.object []), false⟩ =
      .json ⟨404, .object [(utf16 "success", .bool false),
        (utf16 "error", .string (utf16 "API endpoint not found"))]⟩ :=
  ⟨by decide,
    (api_not_found_uniform (siteEnv false) [] .GET "/api/contact".toList "contact".toList
      (.object []) false rfl (by decide) (by decide) (Or.inr (by decide)) (fun _ => rfl)
      (by decide) (by decide)).2⟩

/-- C7 as stated fails, in four ways, each on the path `/api/doesnotexist` or on
another path under `/api/` that no more specific route matches and for which no
static asset exists.  Outside production an `OPTIONS` request is ended by the
CORS middleware as a preflight.  `GET /api/%E0%A4%A` makes the decoding of the
`*` group fail and gets Express's 400.  A `POST` whose JSON body is malformed is
given up by the body parser with 400.  A `HEAD` request reaches the handler but
gets the status without the body. -/
theorem api_not_found_not_for_every_request :
    (matchLayer "/api/contact" true "/api/doesnotexist".toList = .no ∧
      matchLayer "/api/portfolio" true "/api/doesnotexist".toList = .no ∧
      (siteEnv false).asset "/api/doesnotexist".toList = false ∧
      serve (siteEnv false) []
        ⟨.OPTIONS, "/api/doesnotexist".toList, .parsed (.object []), false⟩ = .preflight) ∧
    (matchLayer "/api/contact" true "/api/%E0%A4%A".toList = .no ∧
      matchLayer "/api/portfolio" true "/api/%E0%A4%A".toList = .no ∧
      (siteEnv false).asset "/api/%E0%A4%A".toList = false ∧
      serve (siteEnv false) []
        ⟨.GET, "/api/%E0%A4%A".toList, .parsed (.object []), false⟩ = .error 400) ∧
    serve (siteEnv false) []
      ⟨.POST, "/api/doesnotexist".toList, .jsonRejected 400, false⟩ = .error 400 ∧
    serve (siteEnv false) []
      ⟨.HEAD, "/api/doesnotexist".toList, .parsed (.object []), false⟩ = .bare 404 :=
  ⟨⟨by decide, by decide, rfl, rfl⟩, ⟨by decide, by decide, rfl, rfl⟩, rfl, rfl⟩

/-- C8, as the code has it: a `GET` or `HEAD` request whose body the body parsers
accept, whose path after the first slash percent-decodes, that the health-check
route, the root route and the `/api/*` catch-all do not match (Express compares
without regard to letter case and allows one trailing slash), for which
`express.static` serves nothing, and for which `res.sendFile` finds and sends
`public/index.html`, reaches the fallback and is answered with the entry
document `index.html` (its status and headers only when the method is `HEAD`),
never with a not-found result. -/
theorem spa_fallback_get (env : Env) (now : JSString) (method : Method) (p : List Char)
    (v : JSValue) (fresh : Bool)
    (hmethod : method = .GET ∨ method = .HEAD)
    (hpath : WellFormedPath p)
    (hdecodes : decodes p.tail = true)
    (hasset : env.asset p = false)
    (hentry : env.entry = .sent)
    (hhealth : matchLayer "/health" true p = .no)
    (hroot : matchLayer "/" true p = .no)
    (hapi : matchLayer "/api/*" false p = .no) :
    dispatch env ⟨method, p, .parsed v, fresh⟩ = .answer .spaFallback ∧
    serve env now ⟨method, p, .parsed v, fresh⟩ =
      (if method = .HEAD then .bare 200 else .sendFile "index.html") ∧
    (serve env now ⟨method, p, .parsed v, fresh⟩).isNotFound = false := by
  have hopt : method ≠ .OPTIONS := by rcases hmethod with h | h <;> rw [h] <;> decide
  have hget : handlesMethod .GET method = true := by
    rcases hmethod with h | h <;> rw [h] <;> rfl
  have hcontact : matchLayer "/api/contact" true p = .no :=
    matchLayer_no_of_apiStar_no _ _ tokens_contact p hpath.2 hapi
  have hportfolio : matchLayer "/api/portfolio" true p = .no :=
    matchLayer_no_of_apiStar_no _ _ tokens_portfolio p hpath.2 hapi
  have hd : dispatch env ⟨method, p, .parsed v, fresh⟩ = .answer .spaFallback := by
    rw [dispatch_parsed (Or.inr hopt) rfl (fun _ => hasset),
      runStack_cons_next _ (step_route_no hhealth), runStack_cons_next _ (step_route_no hroot),
      runStack_cons_next _ (step_route_no hcontact),
      runStack_cons_next _ (step_route_no hportfolio),
      runStack_cons_next _ (step_use_no hapi)]
    exact runStack_cons_answer _ (step_route_yes (matchLayer_star p hpath hdecodes) hget)
  have hs : serve env now ⟨method, p, .parsed v, fresh⟩ =
      (if method = .HEAD then .bare 200 else .sendFile "index.html") := by
    simp only [serve, hd, Handler.run, sendEntry, hentry]
    rcases hmethod with h | h <;> rw [h] <;> rfl
  refine ⟨hd, hs, ?_⟩
  rw [hs]
  rcases hmethod with h | h <;> rw [h] <;> rfl

/-- The fallback on `GET /about` with a `public` folder that holds `index.html`. -/
theorem spa_fallback_get_witness :
    WellFormedPath "/about".toList ∧
    serve (siteEnv false) [] ⟨.GET, "/about".toList, .parsed (.object []), false⟩ =
      .sendFile "index.html" :=
  ⟨⟨rfl, by decide⟩,
    (spa_fallback_get (siteEnv false) [] .GET "/about".toList (.object []) false (Or.inl rfl)
      ⟨rfl, by decide⟩ (by decide) rfl rfl (by decide) (by decide) (by decide)).2.1⟩

/-- C8 as stated fails, in six ways, each on a path that is neither the
health-check path nor the root nor under `/api/` and has no static asset.
`POST /about` is answered by no layer and gets Express's 404.  `GET /API/x` is
matched by the case-insensitive `/api/*` catch-all and gets the API 404.
`GET /%E0%A4%A` makes the decoding of the `*` group fail and gets 400.  A `GET
/about` whose JSON body is malformed is given up by the body parser with 400.
Without `public/index.html`, `GET /about` reaches the fallback, `res.sendFile`
fails and the answer is a 404.  `HEAD /about` gets the status and headers of the
document without the document. -/
theorem spa_fallback_not_for_every_request :
    (¬ "/api/".toList <+: "/about".toList ∧
      (siteEnv false).asset "/about".toList = false ∧
      serve (siteEnv false) []
        ⟨.POST, "/about".toList, .parsed (.object []), false⟩ = .notFound) ∧
    (¬ "/api/".toList <+: "/API/x".toList ∧
      (siteEnv false).asset "/API/x".toList = false ∧
      serve (siteEnv false) [] ⟨.GET, "/API/x".toList, .parsed (.object []), false⟩ =
        .json ⟨404, .object [(utf16 "success", .bool false),
          (utf16 "error", .string (utf16 "API endpoint not found"))]⟩) ∧
    (¬ "/api/".toList <+: "/%E0%A4%A".toList ∧
      (siteEnv false).asset "/%E0%A4%A".toList = false ∧
      serve (siteEnv false) []
        ⟨.GET, "/%E0%A4%A".toList, .parsed (.object []), false⟩ = .error 400) ∧
    serve (siteEnv false) [] ⟨.GET, "/about".toList, .jsonRejected 400, false⟩ = .error 400 ∧
    (emptyEnv.asset "/about".toList = false ∧
      serve emptyEnv [] ⟨.GET, "/about".toList, .parsed (.object []), false⟩ = .error 404) ∧
    serve (siteEnv false) [] ⟨.HEAD, "/about".toList, .parsed (.object []), false⟩ = .bare 200 :=
  ⟨⟨by decide, rfl, rfl⟩, ⟨by decide, rfl, rfl⟩, ⟨by decide, rfl, rfl⟩, rfl, ⟨rfl, rfl⟩, rfl⟩

/-- C9, as the code has it: layers are tried in registration order and the first
that does not pass the request on decides.  A `POST /api/contact` whose body the
body parsers accept always reaches the contact handler; a `GET /api/portfolio`
whose body the parsers accept reaches the portfolio provider when
`express.static`, which is registered before the routes, serves nothing for that
path; neither request, whatever its body, is ever answered by the API 404
catch-all or by the entry-document fallback; and the catch-all answers only
requests that neither of the two routes matches. -/
theorem route_precedence (env : Env) (now : JSString) (v : JSValue) (fresh : Bool) :
    (dispatch env ⟨.POST, "/api/contact".toList, .parsed v, fresh⟩ = .answer .contact ∧
      serve env now ⟨.POST, "/api/contact".toList, .parsed v, fresh⟩ =
        .json (contactHandler now v)) ∧
    (env.asset "/api/portfolio".toList = false →
      dispatch env ⟨.GET, "/api/portfolio".toList, .parsed v, fresh⟩ = .answer .portfolio) ∧
    (∀ body : BodyResult,
      dispatch env ⟨.POST, "/api/contact".toList, body, fresh⟩ ≠ .answer .apiNotFound ∧
      dispatch env ⟨.POST, "/api/contact".toList, body, fresh⟩ ≠ .answer .spaFallback ∧
      dispatch env ⟨.GET, "/api/portfolio".toList, body, fresh⟩ ≠ .answer .apiNotFound ∧
      dispatch env ⟨.GET, "/api/portfolio".toList, body, fresh⟩ ≠ .answer .spaFallback) ∧
    (∀ req : Request, dispatch env req = .answer .apiNotFound →
      ¬ (matchLayer "/api/contact" true req.path = .yes ∧
          handlesMethod .POST req.method = true) ∧
      ¬ (matchLayer "/api/portfolio" true req.path = .yes ∧
          handlesMethod .GET req.method = true)) := by
  have hPost : Method.POST ≠ Method.OPTIONS := by decide
  have hGet : Method.GET ≠ Method.OPTIONS := by decide
  have hc : ∀ w : JSValue,
      dispatch env ⟨.POST, "/api/contact".toList, .parsed w, fresh⟩ = .answer .contact := by
    intro w
    have e0 := @dispatch_parsed env ⟨.POST, "/api/contact".toList, .parsed w, fresh⟩ w
      (Or.inr hPost) rfl
      (fun h => h.elim (fun e => Method.noConfusion e) (fun e => Method.noConfusion e))
    have e1 : Layer.step env ⟨.POST, "/api/contact".toList, .parsed w, fresh⟩
        (.route .GET "/health" .health) = .next :=
      step_route_no (show matchLayer "/health" true "/api/contact".toList = .no by decide)
    have e2 : Layer.step env ⟨.POST, "/api/contact".toList, .parsed w, fresh⟩
        (.route .GET "/" .home) = .next :=
      step_route_no (show matchLayer "/" true "/api/contact".toList = .no by decide)
    have e3 : Layer.step env ⟨.POST, "/api/contact".toList, .parsed w, fresh⟩
        (.route .POST "/api/contact" .contact) = .answer .contact :=
      step_route_yes (show matchLayer "/api/contact" true "/api/contact".toList = .yes by decide)
        (show handlesMethod .POST .POST = true by decide)
    rw [e0, runStack_cons_next _ e1, runStack_cons_next _ e2]
    exact runStack_cons_answer _ e3
  have hp : ∀ w : JSValue, env.asset "/api/portfolio".toList = false →
      dispatch env ⟨.GET, "/api/portfolio".toList, .parsed w, fresh⟩ = .answer .portfolio := by
    intro w ha
    have e0 := @dispatch_parsed env ⟨.GET, "/api/portfolio".toList, .parsed w, fresh⟩ w
      (Or.inr hGet) rfl (fun _ => ha)
    have e1 : Layer.step env ⟨.GET, "/api/portfolio".toList, .parsed w, fresh⟩
        (.route .GET "/health" .health) = .next :=
      step_route_no (show matchLayer "/health" true "/api/portfolio".toList = .no by decide)
    have e2 : Layer.step env ⟨.GET, "/api/portfolio".toList, .parsed w, fresh⟩
        (.route .GET "/" .home) = .next :=
      step_route_no (show matchLayer "/" true "/api/portfolio".toList = .no by decide)
    have e3 : Layer.step env ⟨.GET, "/api/portfolio".toList, .parsed w, fresh⟩
        (.route .POST "/api/contact" .contact) = .next :=
      step_route_no (show matchLayer "/api/contact" true "/api/portfolio".toList = .no by decide)
    have e4 : Layer.step env ⟨.GET, "/api/portfolio".toList, .parsed w, fresh⟩
        (.route .GET "/api/portfolio" .portfolio) = .answer .portfolio :=
      step_route_yes
        (show matchLayer "/api/portfolio" true "/api/portfolio".toList = .yes by decide)
        (show handlesMethod .GET .GET = true by decide)
    rw [e0, runStack_cons_next _ e1, runStack_cons_next _ e2, runStack_cons_next _ e3]
    exact runStack_cons_answer _ e4
  have hs : ∀ w : JSValue, env.asset "/api/portfolio".toList = true →
      dispatch env ⟨.GET, "/api/portfolio".toList, .parsed w, fresh⟩ = .answer .staticAsset :=
    fun w ha => @dispatch_static env ⟨.GET, "/api/portfolio".toList, .parsed w, fresh⟩ w
      (Or.inr hGet) rfl (Or.inl rfl) ha
  have hj : ∀ (m : Method) (q : List Char) (s : Nat), m ≠ .OPTIONS →
      dispatch env ⟨m, q, .jsonRejected s, fresh⟩ = .error s :=
    fun m q s hm => @dispatch_jsonRejected env ⟨m, q, .jsonRejected s, fresh⟩ s (Or.inr hm) rfl
  have hu : ∀ (m : Method) (q : List Char) (s : Nat), m ≠ .OPTIONS →
      dispatch env ⟨m, q, .urlencodedRejected s, fresh⟩ = .error s :=
    fun m q s hm =>
      @dispatch_urlencodedRejected env ⟨m, q, .urlencodedRejected s, fresh⟩ s (Or.inr hm) rfl
  refine ⟨⟨hc v, ?_⟩, hp v, ?_, ?_⟩
  · simp only [serve, hc v]
    rfl
  · intro body
    cases body with
    | parsed w =>
      refine ⟨by rw [hc w]; decide, by rw [hc w]; decide, ?_, ?_⟩ <;>
        cases ha : env.asset "/api/portfolio".toList
      · rw [hp w ha]; decide
      · rw [hs w ha]; decide
      · rw [hp w ha]; decide
      · rw [hs w ha]; decide
    | jsonRejected s =>
      refine ⟨?_, ?_, ?_, ?_⟩
      · rw [hj _ _ s hPost]; intro h; cases h
      · rw [hj _ _ s hPost]; intro h; cases h
      · rw [hj _ _ s hGet]; intro h; cases h
      · rw [hj _ _ s hGet]; intro h; cases h
    | urlencodedRejected s =>
      refine ⟨?_, ?_, ?_, ?_⟩
      · rw [hu _ _ s hPost]; intro h; cases h
      · rw [hu _ _ s hPost]; intro h; cases h
      · rw [hu _ _ s hGet]; intro h; cases h
      · rw [hu _ _ s hGet]; intro h; cases h
  · intro req h
    unfold dispatch stack at h
    obtain ⟨-, h⟩ := runStack_cons_inv h (fun e => absurd (step_cors_answer e) (by decide))
    obtain ⟨-, h⟩ := runStack_cons_inv h step_json_answer
    obtain ⟨-, h⟩ := runStack_cons_inv h step_urlencoded_answer
    obtain ⟨-, h⟩ := runStack_cons_inv h (fun e => absurd (step_static_answer e) (by decide))
    obtain ⟨-, h⟩ := runStack_cons_inv h (fun e => absurd (step_route_answer e) (by decide))
    obtain ⟨-, h⟩ := runStack_cons_inv h (fun e => absurd (step_route_answer e) (by decide))
    obtain ⟨h5, h⟩ := runStack_cons_inv h (fun e => absurd (step_route_answer e) (by decide))
    obtain ⟨h6, -⟩ := runStack_cons_inv h (fun e => absurd (step_route_answer e) (by decide))
    exact ⟨step_route_next_inv h5, step_route_next_inv h6⟩

/-- The precedence with a `public` folder that holds only `index.html`, outside
production: the portfolio request reaches the portfolio provider. -/
theorem route_precedence_witness :
    (siteEnv false).asset "/api/portfolio".toList = false ∧
    dispatch (siteEnv false) ⟨.GET, "/api/portfolio".toList, .parsed (.object []), false⟩ =
      .answer .portfolio ∧
    dispatch (siteEnv false) ⟨.POST, "/api/contact".toList, .parsed (.object []), false⟩ =
      .answer .contact :=
  ⟨rfl, (route_precedence (siteEnv false) [] (.object []) false).2.1 rfl,
    (route_precedence (siteEnv false) [] (.object []) false).1.1⟩

/-- C9 as stated fails, in two ways.  With a file at `public/api/portfolio`,
`express.static` answers `GET /api/portfolio` before the route of the portfolio
provider is tried.  A `POST /api/contact` whose JSON body is malformed is given
up by the body parser with 400 before the route of the contact handler is
tried. -/
theorem routes_shadowed_by_earlier_layers :
    (dispatch shadowEnv ⟨.GET, "/api/portfolio".toList, .parsed (.object []), false⟩ =
        .answer .staticAsset ∧
      serve shadowEnv [] ⟨.GET, "/api/portfolio".toList, .parsed (.object []), false⟩ =
        .asset "/api/portfolio".toList) ∧
    (dispatch (siteEnv false) ⟨.POST, "/api/contact".toList, .jsonRejected 400, false⟩ =
        .error 400 ∧
      serve (siteEnv false) [] ⟨.POST, "/api/contact".toList, .jsonRejected 400, false⟩ =
        .error 400) :=
  ⟨⟨by decide, rfl⟩, ⟨by decide, rfl⟩⟩

end Server
